import Mathlib

/-!
# The App Hosting preparer binary (`cmd/firebase/preparer/main.go`)

A shallow embedding of `main` and `handleError`.

* Go `error` values are modelled by the tree `GoError` (what `Unwrap` exposes).
* The process is modelled by the list of observable calls it makes (`Event`),
  in order, up to the point where the process ends.
* The collaborators that live outside this file (`secretmanager.NewClient`,
  `filesystem.DetectAppHostingYAMLPath`, `preparer.Prepare`) are parameters of the
  run, collected in `Env`.
-/

namespace Preparer

/-! ## Errors -/

/-- Modelled from the spec: the type `faherror.FahError` (package `pkg/firebase/faherror`
is outside the sources verified here).  The spec describes it as the marker of a known,
user-attributable failure that carries a user-facing message. -/
structure FahError where
  msg : String
deriving DecidableEq, Repr

/-- A non-nil Go `error`, described by what `Error()` and `Unwrap()` expose.
`user` and `internal` are the values built by `gcpbuildpack.UserErrorf("%w", inner)` and
`faherror.InternalErrorf("%w", inner)`. -/
inductive GoError where
  /-- An error without `Unwrap`, e.g. `errors.New(msg)`. -/
  | plain (msg : String)
  /-- A `*faherror.FahError`. -/
  | fah (fe : FahError)
  /-- The value of `fmt.Errorf(before + "%w" + after, inner)`. -/
  | wrapf (before : String) (inner : GoError) (after : String)
  /-- An error with `Unwrap() []error`, e.g. `errors.Join(l, r)`. -/
  | join (l r : GoError)
  /-- The value of `gcpbuildpack.UserErrorf("%w", inner)`. -/
  | user (inner : GoError)
  /-- The value of `faherror.InternalErrorf("%w", inner)`. -/
  | internal (inner : GoError)
deriving DecidableEq, Repr

/-- Modelled from the spec: `gcpbuildpack.UserErrorf`, called with the format `"%w"`
(package `pkg/gcpbuildpack` is outside the sources verified here).  The spec says the
failure is wrapped as a user error. -/
def UserErrorf (arg : GoError) : GoError := GoError.user arg

/-- Modelled from the spec: `faherror.InternalErrorf`, called with the format `"%w"`
(package `pkg/firebase/faherror` is outside the sources verified here).  The spec says the
failure is wrapped as an internal error. -/
def InternalErrorf (arg : GoError) : GoError := GoError.internal arg

/-- Modelled from the spec: the method `Error()` of the error types of
`pkg/firebase/faherror` and `pkg/gcpbuildpack`, which are outside the sources verified
here.  A `FahError` carries its user-facing message; the errors built with the format
`"%w"` have the message of their argument (the spec says that the reporter output of a
user error is the unwrapped user message).  For the values of `fmt.Errorf` and
`errors.Join` it is the message of the standard library. -/
def GoError.Error : GoError → String
  | .plain m => m
  | .fah fe => fe.msg
  | .wrapf b i a => b ++ i.Error ++ a
  | .join l r => l.Error ++ "\n" ++ r.Error
  | .user i => i.Error
  | .internal i => i.Error

/-- The errors directly below an error: the result of `Unwrap() error` (at most one)
or of `Unwrap() []error`. -/
def GoError.unwrap : GoError → List GoError
  | .plain _ => []
  | .fah _ => []
  | .wrapf _ i _ => [i]
  | .join l r => [l, r]
  | .user i => [i]
  | .internal i => [i]

/-- Go's `errors.As(err, &fe)` with `fe` of type `*faherror.FahError`: the pre-order,
depth-first walk of the standard library, which stops at the first error whose type is
`*faherror.FahError`.  `some fe` is the `true` result together with the value stored
in the target. -/
def errorsAs : GoError → Option FahError
  | .plain _ => none
  | .fah fe => some fe
  | .wrapf _ i _ => errorsAs i
  | .join l r =>
    match errorsAs l with
    | some fe => some fe
    | none => errorsAs r
  | .user i => errorsAs i
  | .internal i => errorsAs i

/-- The function `handleError` of `main.go`. -/
def handleError (err : GoError) : GoError :=
  match errorsAs err with
  | some fe =>
    -- Known App Hosting user errors are wrapped by a GCP User Error
    UserErrorf (.fah fe)
  | none => InternalErrorf err

/-! ### The spec's vocabulary for errors -/

/-- The error chain of an error, in the words of the spec: the error itself and every
error reachable from it through `Unwrap`, in pre-order. -/
def errorChain : GoError → List GoError
  | .plain m => [.plain m]
  | .fah fe => [.fah fe]
  | .wrapf b i a => .wrapf b i a :: errorChain i
  | .join l r => .join l r :: (errorChain l ++ errorChain r)
  | .user i => .user i :: errorChain i
  | .internal i => .internal i :: errorChain i

/-- The `*faherror.FahError` behind an error value, if it is one. -/
def asFahError : GoError → Option FahError
  | .fah fe => some fe
  | _ => none

/-- Whether an error is a user error, built by `gcpbuildpack.UserErrorf`. -/
def isUserError : GoError → Bool
  | .user _ => true
  | _ => false

/-! ## Flags, options and collaborators -/

/-- The package-level flag variables of `main.go`, after `flag.Parse()`.  Each one is a
`*string`; all are dereferenced unconditionally except `backendRootDirectory`, which the
code compares with `nil`, so that one keeps its pointer (`none` is `nil`). -/
structure Flags where
  apphostingYAMLFilePath : String
  workspacePath : String
  projectID : String
  environmentName : String
  appHostingYAMLOutputFilePath : String
  dotEnvOutputFilePath : String
  backendRootDirectory : Option String
  buildpackConfigOutputFilePath : String
  firebaseConfig : String
  firebaseWebappConfig : String
  serverSideEnvVars : String
deriving DecidableEq, Repr

/-- A handle to a secret manager client (`*secretmanager.Client`). -/
structure Client where
  handle : Nat
deriving DecidableEq, Repr

/-- The fields of `preparer.Options` that `main` sets. -/
structure Options where
  SecretClient : Client
  AppHostingYAMLPath : String
  ProjectID : String
  EnvironmentName : String
  AppHostingYAMLOutputFilePath : String
  EnvDereferencedOutputFilePath : String
  BackendRootDirectory : String
  BuildpackConfigOutputFilePath : String
  FirebaseConfig : String
  FirebaseWebappConfig : String
  ServerSideEnvVars : String
deriving DecidableEq, Repr

/-- The observable calls of a run. -/
inductive Event where
  /-- The call `log.Fatal(msg)`: prints `msg` and ends the process with `os.Exit(1)`. -/
  | logFatal (msg : String)
  /-- The call `secretmanager.NewClient(ctx)`. -/
  | newClient
  /-- The call `secretClient.Close()`. -/
  | close (c : Client)
  /-- The call `filesystem.DetectAppHostingYAMLPath(workspace, backend)`. -/
  | detect (workspace backend : String)
  /-- The call `preparer.Prepare(ctx, opts)`. -/
  | prepare (opts : Options)
  /-- The call `gcpCtx.Exit(code, err)`; `none` is a nil error. -/
  | exit (code : Int) (err : Option GoError)
  /-- A nil pointer dereference. -/
  | nilDeref
deriving DecidableEq, Repr

/-- The behaviour of the collaborators during one run.  Each is called at most once by
`main`, so a function of the arguments describes it. -/
structure Env where
  /-- The result of `secretmanager.NewClient`: a client, or an error. -/
  NewClient : Except GoError Client
  /-- The two results `(path, err)` of `filesystem.DetectAppHostingYAMLPath`. -/
  DetectAppHostingYAMLPath : String → String → String × Option GoError
  /-- The result of `preparer.Prepare`; `none` is a nil error. -/
  Prepare : Options → Option GoError

/-! ## The process -/

/-- What a running function has done so far: the calls made, oldest first, and the
calls registered with `defer`, most recent first. -/
structure Frame where
  trace : List Event
  deferred : List Event
deriving DecidableEq, Repr

/-- The result of running a piece of `main`: either the process has ended (`os.Exit`
was reached, deferred calls do not run), or control goes on with a value. -/
inductive Ctl (α : Type) where
  | exited (trace : List Event)
  | running (a : α) (fr : Frame)

/-- A piece of `main`: a function of the frame. -/
def Proc (α : Type) : Type := Frame → Ctl α

/-- Sequencing of statements: nothing runs after the process has ended. -/
def Proc.bind {α β : Type} (m : Proc α) (k : α → Proc β) : Proc β := fun fr =>
  match m fr with
  | .exited tr => .exited tr
  | .running a fr2 => k a fr2

instance : Monad Proc where
  pure a := fun fr => .running a fr
  bind := Proc.bind

/-- A call that ends the process at the point of the call (`os.Exit`). -/
def endProcess {α : Type} (e : Event) : Proc α := fun fr =>
  .exited (fr.trace ++ [e])

/-- The call `log.Fatal(msg)`. -/
def logFatal (msg : String) : Proc Unit := endProcess (.logFatal msg)

/-- Modelled from the spec: the method `Exit` of `gcpbuildpack.Context` (package
`pkg/gcpbuildpack` is outside the sources verified here).  The spec says it is used to
terminate with a status and an optional structured error. -/
def Exit (code : Int) (err : Option GoError) : Proc Unit := endProcess (.exit code err)

/-- The statement `defer call`. -/
def deferCall (e : Event) : Proc Unit := fun fr =>
  .running () { fr with deferred := e :: fr.deferred }

/-- A call to a collaborator that returns. -/
def call {α : Type} (e : Event) (result : α) : Proc α := fun fr =>
  .running result { fr with trace := fr.trace ++ [e] }

/-- The dereference `*p` of a `*string`: a nil pointer panics, the deferred calls run
and the process ends. -/
def deref : Option String → Proc String
  | some s => pure s
  | none => fun fr => .exited (fr.trace ++ fr.deferred ++ [.nilDeref])

/-- The struct literal `preparer.Options{...}` of `main`: the options assembler. -/
def assembleOptions (fl : Flags) (backend : String) (secretClient : Client) : Options :=
  { SecretClient := secretClient
    AppHostingYAMLPath := fl.apphostingYAMLFilePath
    ProjectID := fl.projectID
    EnvironmentName := fl.environmentName
    AppHostingYAMLOutputFilePath := fl.appHostingYAMLOutputFilePath
    EnvDereferencedOutputFilePath := fl.dotEnvOutputFilePath
    BackendRootDirectory := backend
    BuildpackConfigOutputFilePath := fl.buildpackConfigOutputFilePath
    FirebaseConfig := fl.firebaseConfig
    FirebaseWebappConfig := fl.firebaseWebappConfig
    ServerSideEnvVars := fl.serverSideEnvVars }

/-- The body of the function `main` of `main.go`, statement by statement.  The flags
are the values after `flag.Parse()`; `context.Background()` and
`gcpbuildpack.NewContext()` make no observable call and are left out. -/
def mainBody (fl : Flags) (env : Env) : Proc Unit := do
  if fl.projectID = "" then
    logFatal "--project_id flag not specified."
  if fl.appHostingYAMLOutputFilePath = "" then
    logFatal "--apphostingyaml_output_filepath flag not specified."
  if fl.dotEnvOutputFilePath = "" then
    logFatal "--dot_env_output_filepath flag not specified."
  if fl.backendRootDirectory = none then
    logFatal "--backend_root_directory flag not specified."
  if fl.buildpackConfigOutputFilePath = "" then
    logFatal "--buildpack_config_output_filepath flag not specified."
  match ← call .newClient env.NewClient with
  | .error err =>
    logFatal (GoError.wrapf "failed to create secretmanager client: " err "").Error
  | .ok secretClient =>
    deferCall (.close secretClient)
    let backend ← deref fl.backendRootDirectory
    let mut opts := assembleOptions fl backend secretClient
    -- If no apphosting.yaml path is provided, try to detect the root directory
    -- containing the file.
    if opts.AppHostingYAMLPath = "" ∧ backend ≠ "" then
      let r ← call (.detect fl.workspacePath backend)
        (env.DetectAppHostingYAMLPath fl.workspacePath backend)
      opts := { opts with AppHostingYAMLPath := r.1 }
      match r.2 with
      | some err => Exit 1 (some (handleError err))
      | none => pure ()
    match ← call (.prepare opts) (env.Prepare opts) with
    | some err => Exit 1 (some (handleError err))
    | none => pure ()
    Exit 0 none

/-- The calls made by a function body run as the function `main` of a process, until
the process ends.  When the body returns, the deferred calls run, most recent first, and
the process ends. -/
def runProc (body : Proc Unit) : List Event :=
  match body ⟨[], []⟩ with
  | .exited tr => tr
  | .running _ fr => fr.trace ++ fr.deferred

/-- A run of the program: the calls made until the process ends. -/
def main (fl : Flags) (env : Env) : List Event :=
  runProc (mainBody fl env)

/-! ## Flag parsing -/

/-- A command line: for each flag, the value given, or `none` when the flag is not
given. -/
structure CommandLine where
  apphostingyaml_filepath : Option String
  workspace_path : Option String
  project_id : Option String
  environment_name : Option String
  apphostingyaml_output_filepath : Option String
  dot_env_output_filepath : Option String
  backend_root_directory : Option String
  buildpack_config_output_filepath : Option String
  firebase_config : Option String
  firebase_webapp_config : Option String
  server_side_env_vars : Option String
deriving DecidableEq, Repr

/-- The `flag.String` declarations of `main.go` followed by `flag.Parse()`: each variable
holds the value given on the command line, or the default of its declaration when the
flag is not given.  `flag.String` returns the address of a variable, so the pointer
`backendRootDirectory` is never nil. -/
def flagParse (cl : CommandLine) : Flags :=
  { apphostingYAMLFilePath := cl.apphostingyaml_filepath.getD ""
    workspacePath := cl.workspace_path.getD "/workspace"
    projectID := cl.project_id.getD ""
    environmentName := cl.environment_name.getD ""
    appHostingYAMLOutputFilePath := cl.apphostingyaml_output_filepath.getD ""
    dotEnvOutputFilePath := cl.dot_env_output_filepath.getD ""
    backendRootDirectory := some (cl.backend_root_directory.getD "")
    buildpackConfigOutputFilePath := cl.buildpack_config_output_filepath.getD ""
    firebaseConfig := cl.firebase_config.getD ""
    firebaseWebappConfig := cl.firebase_webapp_config.getD ""
    serverSideEnvVars := cl.server_side_env_vars.getD "" }

/-! ## Sample inputs -/

/-- The flags of the spec's scenario: every mandatory flag given, no explicit
`apphostingyaml_filepath`. -/
def sampleFlags : Flags :=
  { apphostingYAMLFilePath := ""
    workspacePath := "/workspace"
    projectID := "p1"
    environmentName := ""
    appHostingYAMLOutputFilePath := "/out/apphosting.yaml"
    dotEnvOutputFilePath := "/out/.env"
    backendRootDirectory := some "/ws/app"
    buildpackConfigOutputFilePath := "/out/bp.json"
    firebaseConfig := ""
    firebaseWebappConfig := ""
    serverSideEnvVars := "" }

/-- Collaborators that all succeed; the resolver returns `/ws/app/apphosting.yaml`. -/
def sampleEnv : Env :=
  { NewClient := .ok ⟨7⟩
    DetectAppHostingYAMLPath := fun _ _ => ("/ws/app/apphosting.yaml", none)
    Prepare := fun _ => none }

/-- The command line of the spec's scenario: every mandatory flag given, no
`apphostingyaml_filepath`. -/
def sampleCommandLine : CommandLine :=
  { apphostingyaml_filepath := none
    workspace_path := none
    project_id := some "p1"
    environment_name := none
    apphostingyaml_output_filepath := some "/out/apphosting.yaml"
    dot_env_output_filepath := some "/out/.env"
    backend_root_directory := some "/ws/app"
    buildpack_config_output_filepath := some "/out/bp.json"
    firebase_config := none
    firebase_webapp_config := none
    server_side_env_vars := none }

/-- The command line of the spec's scenario without the flag backend_root_directory. -/
def commandLineNoBackend : CommandLine :=
  { sampleCommandLine with backend_root_directory := none }

/-- The command line of the spec's scenario without the flags project_id and
dot_env_output_filepath. -/
def commandLineMissingTwo : CommandLine :=
  { sampleCommandLine with project_id := none, dot_env_output_filepath := none }

/-! ## The spec's vocabulary for runs -/

/-- The mandatory fields in the order in which `main` checks them, each with the name
of its flag and whether it is missing: an empty string, or a nil pointer for
`backend_root_directory`. -/
def mandatoryFields (fl : Flags) : List (String × Bool) :=
  [ ("project_id", decide (fl.projectID = "")),
    ("apphostingyaml_output_filepath", decide (fl.appHostingYAMLOutputFilePath = "")),
    ("dot_env_output_filepath", decide (fl.dotEnvOutputFilePath = "")),
    ("backend_root_directory", decide (fl.backendRootDirectory = none)),
    ("buildpack_config_output_filepath", decide (fl.buildpackConfigOutputFilePath = "")) ]

/-- The names of the mandatory fields that are missing, in the fixed order. -/
def missingFields (fl : Flags) : List String :=
  ((mandatoryFields fl).filter (fun p => p.2)).map (fun p => p.1)

/-- The flags pass validation: no mandatory field is missing. -/
def passesValidation (fl : Flags) : Prop := missingFields fl = []

instance (fl : Flags) : Decidable (passesValidation fl) := by
  unfold passesValidation; infer_instance

/-- The mandatory fields that are missing on a command line, in the fixed order: a
string field is missing when its value is the empty string, `backend_root_directory`
when the flag is absent. -/
def claimedMissing (cl : CommandLine) : List String :=
  (([ ("project_id", decide (cl.project_id.getD "" = "")),
      ("apphostingyaml_output_filepath",
        decide (cl.apphostingyaml_output_filepath.getD "" = "")),
      ("dot_env_output_filepath", decide (cl.dot_env_output_filepath.getD "" = "")),
      ("backend_root_directory", decide (cl.backend_root_directory = none)),
      ("buildpack_config_output_filepath",
        decide (cl.buildpack_config_output_filepath.getD "" = "")) ]
    : List (String × Bool)).filter (fun p => p.2)).map (fun p => p.1)

/-- The four mandatory string fields in the order in which `main` checks them, each with
the name of its flag and whether it is empty. -/
def mandatoryStringFields (fl : Flags) : List (String × Bool) :=
  [ ("project_id", decide (fl.projectID = "")),
    ("apphostingyaml_output_filepath", decide (fl.appHostingYAMLOutputFilePath = "")),
    ("dot_env_output_filepath", decide (fl.dotEnvOutputFilePath = "")),
    ("buildpack_config_output_filepath", decide (fl.buildpackConfigOutputFilePath = "")) ]

/-- The names of the mandatory string fields that are empty, in the fixed order. -/
def missingStringFields (fl : Flags) : List String :=
  ((mandatoryStringFields fl).filter (fun p => p.2)).map (fun p => p.1)

/-- Whether a call is a call to `log.Fatal`. -/
def Event.isLogFatal : Event → Bool
  | .logFatal _ => true
  | _ => false

/-- The text of the fatal diagnostic that names a flag. -/
def fatalDiagnostic (name : String) : String := "--" ++ name ++ " flag not specified."

/-- The calls from `preparer.Prepare` on, for the options `opts`. -/
def prepareAndExit (env : Env) (opts : Options) : List Event :=
  match env.Prepare opts with
  | some err => [.prepare opts, .exit 1 (some (handleError err))]
  | none => [.prepare opts, .exit 0 none]

/-- The calls of a run whose flags pass validation and whose secret client `c` was
created, `backend` being the value of `backend_root_directory`. -/
def runWithClient (fl : Flags) (env : Env) (backend : String) (c : Client) : List Event :=
  if fl.apphostingYAMLFilePath = "" ∧ backend ≠ "" then
    match (env.DetectAppHostingYAMLPath fl.workspacePath backend).2 with
    | some err =>
      [.newClient, .detect fl.workspacePath backend, .exit 1 (some (handleError err))]
    | none =>
      .newClient :: .detect fl.workspacePath backend ::
        prepareAndExit env { assembleOptions fl backend c with
          AppHostingYAMLPath := (env.DetectAppHostingYAMLPath fl.workspacePath backend).1 }
  else
    .newClient :: prepareAndExit env (assembleOptions fl backend c)

/-- The options after the path resolution step of `main`: the assembled options, with
`AppHostingYAMLPath` replaced by the path the resolver returned when `main` calls it. -/
def resolvedOptions (fl : Flags) (env : Env) (backend : String) (c : Client) : Options :=
  if fl.apphostingYAMLFilePath = "" ∧ backend ≠ "" then
    { assembleOptions fl backend c with
      AppHostingYAMLPath := (env.DetectAppHostingYAMLPath fl.workspacePath backend).1 }
  else
    assembleOptions fl backend c

/-- Whether a call is a call to the path resolver. -/
def Event.isDetect : Event → Bool
  | .detect _ _ => true
  | _ => false

/-- Whether a call is a call to `preparer.Prepare`. -/
def Event.isPrepare : Event → Bool
  | .prepare _ => true
  | _ => false

/-- Whether a call is a call to `gcpCtx.Exit`. -/
def Event.isExit : Event → Bool
  | .exit _ _ => true
  | _ => false

/-- Whether a call is a call to `secretClient.Close`. -/
def Event.isClose : Event → Bool
  | .close _ => true
  | _ => false

/-- Flags with every optional flag given too. -/
def fullFlags : Flags :=
  { sampleFlags with
    apphostingYAMLFilePath := "/ws/app/custom.yaml"
    environmentName := "staging"
    firebaseConfig := "projectId=p1"
    firebaseWebappConfig := "appId=a1"
    serverSideEnvVars := "KEY=value" }

/-- An error that wraps a known user error with the message of the spec's scenario. -/
def wrappedUserError : GoError :=
  .wrapf "preparing the build: " (.fah ⟨"invalid runtime version"⟩) ""

/-- Collaborators whose `Prepare` fails with `wrappedUserError`. -/
def envPrepareFails : Env :=
  { sampleEnv with Prepare := fun _ => some wrappedUserError }

/-- Collaborators whose path resolver fails with an error that is not a user error. -/
def envDetectFails : Env :=
  { sampleEnv with
    DetectAppHostingYAMLPath := fun _ _ => ("", some (.plain "apphosting.yaml not found")) }

/-! ## Lemmas on runs -/

theorem passesValidation_iff (fl : Flags) :
    passesValidation fl ↔
      fl.projectID ≠ "" ∧ fl.appHostingYAMLOutputFilePath ≠ "" ∧
      fl.dotEnvOutputFilePath ≠ "" ∧ fl.backendRootDirectory ≠ none ∧
      fl.buildpackConfigOutputFilePath ≠ "" := by
  unfold passesValidation missingFields mandatoryFields
  by_cases h1 : fl.projectID = "" <;> by_cases h2 : fl.appHostingYAMLOutputFilePath = ""
    <;> by_cases h3 : fl.dotEnvOutputFilePath = "" <;> by_cases h4 : fl.backendRootDirectory = none
    <;> by_cases h5 : fl.buildpackConfigOutputFilePath = ""
    <;> simp [h1, h2, h3, h4, h5, List.filter]

theorem main_of_client (fl : Flags) (env : Env) (c : Client) (b : String)
    (hv : passesValidation fl) (hb : fl.backendRootDirectory = some b)
    (hc : env.NewClient = .ok c) :
    main fl env = runWithClient fl env b c := by
  rw [passesValidation_iff] at hv
  obtain ⟨h1, h2, h3, h4, h5⟩ := hv
  have h4 : ¬ (some b = (none : Option String)) := by simp
  unfold main runProc mainBody runWithClient prepareAndExit
  by_cases hd : fl.apphostingYAMLFilePath = "" ∧ b ≠ ""
  · have hd2 : (assembleOptions fl b c).AppHostingYAMLPath = "" ∧ b ≠ "" := hd
    rcases hr : (env.DetectAppHostingYAMLPath fl.workspacePath b) with ⟨p, e⟩
    cases e with
    | some err =>
      simp [bind, Proc.bind, pure, h1, h2, h3, h4, h5, hb, hc, hd, hd2, hr, call, deferCall, deref,
        logFatal, Exit, endProcess]
    | none =>
      cases hp : env.Prepare { assembleOptions fl b c with AppHostingYAMLPath := p } <;>
      simp [bind, Proc.bind, pure, h1, h2, h3, h4, h5, hb, hc, hd, hd2, hr, hp, call, deferCall,
        deref, logFatal, Exit, endProcess]
  · have hd2 : ¬ ((assembleOptions fl b c).AppHostingYAMLPath = "" ∧ b ≠ "") := hd
    cases hp : env.Prepare (assembleOptions fl b c) <;>
    simp [bind, Proc.bind, pure, h1, h2, h3, h4, h5, hb, hc, hd, hd2, hp, call, deferCall,
      deref, logFatal, Exit, endProcess]

theorem main_of_client_error (fl : Flags) (env : Env) (err : GoError)
    (hv : passesValidation fl) (hc : env.NewClient = .error err) :
    main fl env =
      [.newClient, .logFatal ("failed to create secretmanager client: " ++ err.Error ++ "")] := by
  rw [passesValidation_iff] at hv
  obtain ⟨h1, h2, h3, h4, h5⟩ := hv
  unfold main runProc mainBody
  simp [bind, Proc.bind, pure, h1, h2, h3, h4, h5, hc, call, logFatal, endProcess, GoError.Error]

theorem main_of_missing (fl : Flags) (env : Env) (name : String)
    (h : (missingFields fl).head? = some name) :
    main fl env = [.logFatal (fatalDiagnostic name)] := by
  have e1 : fatalDiagnostic "project_id" = "--project_id flag not specified." := by decide
  have e2 : fatalDiagnostic "apphostingyaml_output_filepath" =
      "--apphostingyaml_output_filepath flag not specified." := by decide
  have e3 : fatalDiagnostic "dot_env_output_filepath" =
      "--dot_env_output_filepath flag not specified." := by decide
  have e4 : fatalDiagnostic "backend_root_directory" =
      "--backend_root_directory flag not specified." := by decide
  have e5 : fatalDiagnostic "buildpack_config_output_filepath" =
      "--buildpack_config_output_filepath flag not specified." := by decide
  unfold missingFields mandatoryFields at h
  unfold main runProc mainBody
  by_cases h1 : fl.projectID = ""
  · simp [h1, List.filter] at h
    simp [← h, e1, bind, Proc.bind, h1, logFatal, endProcess]
  by_cases h2 : fl.appHostingYAMLOutputFilePath = ""
  · simp [h1, h2, List.filter] at h
    simp [← h, e2, bind, Proc.bind, pure, h1, h2, logFatal, endProcess]
  by_cases h3 : fl.dotEnvOutputFilePath = ""
  · simp [h1, h2, h3, List.filter] at h
    simp [← h, e3, bind, Proc.bind, pure, h1, h2, h3, logFatal, endProcess]
  by_cases h4 : fl.backendRootDirectory = none
  · simp [h1, h2, h3, h4, List.filter] at h
    simp [← h, e4, bind, Proc.bind, pure, h1, h2, h3, h4, logFatal, endProcess]
  by_cases h5 : fl.buildpackConfigOutputFilePath = ""
  · simp [h1, h2, h3, h4, h5, List.filter] at h
    simp [← h, e5, bind, Proc.bind, pure, h1, h2, h3, h4, h5, logFatal, endProcess]
  · simp [h1, h2, h3, h4, h5, List.filter] at h

theorem backend_of_passesValidation (fl : Flags) (hv : passesValidation fl) :
    ∃ b, fl.backendRootDirectory = some b := by
  rw [passesValidation_iff] at hv
  cases hb : fl.backendRootDirectory with
  | none => exact absurd hb hv.2.2.2.1
  | some b => exact ⟨b, rfl⟩

theorem flagParse_backend (cl : CommandLine) :
    (flagParse cl).backendRootDirectory = some (cl.backend_root_directory.getD "") := rfl

theorem flagParse_sampleCommandLine : flagParse sampleCommandLine = sampleFlags := rfl

theorem missingFields_of_backend (fl : Flags) (hb : fl.backendRootDirectory ≠ none) :
    missingFields fl = missingStringFields fl := by
  unfold missingFields mandatoryFields missingStringFields mandatoryStringFields
  by_cases h1 : fl.projectID = "" <;> by_cases h2 : fl.appHostingYAMLOutputFilePath = ""
    <;> by_cases h3 : fl.dotEnvOutputFilePath = ""
    <;> by_cases h5 : fl.buildpackConfigOutputFilePath = ""
    <;> simp [h1, h2, h3, hb, h5, List.filter]

/-- C1, as stated, fails: on the command line of the spec's scenario without the flag
backend_root_directory (and nothing else missing) the field counts as missing, yet there
is no fatal diagnostic: the pointer set up by `flag.String` is not nil, and the run
creates the secret client, calls `Prepare` and ends with `Exit(0, nil)`. -/
theorem C1_counterexample :
    claimedMissing commandLineNoBackend = ["backend_root_directory"] ∧
    main (flagParse commandLineNoBackend) sampleEnv =
      [.newClient,
       .prepare (assembleOptions (flagParse commandLineNoBackend) "" ⟨7⟩),
       .exit 0 none] ∧
    main (flagParse commandLineNoBackend) sampleEnv ≠
      [.logFatal (fatalDiagnostic "backend_root_directory")] ∧
    (main (flagParse commandLineNoBackend) sampleEnv).filter Event.isLogFatal = [] := by
  decide

/-- C1, amended: for every command line on which at least one of the four mandatory
string fields project_id, apphostingyaml_output_filepath, dot_env_output_filepath,
buildpack_config_output_filepath is empty after `flag.Parse()`, the run consists of the
single call `log.Fatal` whose message names the first empty one in that order; the secret
client is not created, the path resolver and `Prepare` are not called.  In particular,
when exactly one of them is empty the message names that field. -/
theorem C1_first_missing_string_field_is_fatal (cl : CommandLine) (env : Env)
    (h : missingStringFields (flagParse cl) ≠ []) :
    ∃ name, (missingStringFields (flagParse cl)).head? = some name ∧
      main (flagParse cl) env = [.logFatal (fatalDiagnostic name)] ∧
      Event.newClient ∉ main (flagParse cl) env ∧
      (∀ w b, Event.detect w b ∉ main (flagParse cl) env) ∧
      (∀ o, Event.prepare o ∉ main (flagParse cl) env) ∧
      (∀ only, missingStringFields (flagParse cl) = [only] →
        main (flagParse cl) env = [.logFatal (fatalDiagnostic only)]) := by
  have hb : (flagParse cl).backendRootDirectory ≠ none := by
    rw [flagParse_backend]; simp
  have heq := missingFields_of_backend (flagParse cl) hb
  cases hm : missingStringFields (flagParse cl) with
  | nil => exact absurd hm h
  | cons name rest =>
    have hh : (missingFields (flagParse cl)).head? = some name := by simp [heq, hm]
    have hmain := main_of_missing (flagParse cl) env name hh
    refine ⟨name, rfl, hmain, ?_, ?_, ?_, ?_⟩
    · simp [hmain]
    · simp [hmain]
    · simp [hmain]
    · intro only ho
      simp at ho
      rw [← ho.1]
      exact hmain

/-- C1 amended, at a concrete input: project_id and dot_env_output_filepath are both
missing, and the diagnostic names project_id. -/
theorem C1_first_missing_string_field_is_fatal_witness :
    missingStringFields (flagParse commandLineMissingTwo) ≠ [] ∧
    ∃ name,
      (missingStringFields (flagParse commandLineMissingTwo)).head? = some name ∧
      main (flagParse commandLineMissingTwo) sampleEnv =
        [.logFatal (fatalDiagnostic name)] ∧
      Event.newClient ∉ main (flagParse commandLineMissingTwo) sampleEnv ∧
      (∀ w b, Event.detect w b ∉ main (flagParse commandLineMissingTwo) sampleEnv) ∧
      (∀ o, Event.prepare o ∉ main (flagParse commandLineMissingTwo) sampleEnv) ∧
      (∀ only, missingStringFields (flagParse commandLineMissingTwo) = [only] →
        main (flagParse commandLineMissingTwo) sampleEnv =
          [.logFatal (fatalDiagnostic only)]) :=
  ⟨by decide,
   C1_first_missing_string_field_is_fatal commandLineMissingTwo sampleEnv (by decide)⟩

theorem errorsAs_eq_findSome (err : GoError) :
    errorsAs err = (errorChain err).findSome? asFahError := by
  induction err with
  | plain m => simp [errorsAs, errorChain, asFahError]
  | fah fe => simp [errorsAs, errorChain, asFahError]
  | wrapf b i a ih => simp [errorsAs, errorChain, asFahError, ih]
  | join l r ihl ihr =>
    simp only [errorsAs, errorChain, List.findSome?_cons, asFahError, List.findSome?_append, ihl,
      ihr]
    cases (errorChain l).findSome? asFahError <;> simp
  | user i ih => simp [errorsAs, errorChain, asFahError, ih]
  | internal i ih => simp [errorsAs, errorChain, asFahError, ih]

theorem errorsAs_isSome_iff (err : GoError) :
    (∃ fe, errorsAs err = some fe) ↔ ∃ fe, GoError.fah fe ∈ errorChain err := by
  rw [errorsAs_eq_findSome]
  constructor
  · rintro ⟨fe, h⟩
    obtain ⟨x, hx, hfe⟩ := List.exists_of_findSome?_eq_some h
    cases x <;> simp [asFahError] at hfe
    subst hfe
    exact ⟨_, hx⟩
  · rintro ⟨fe, h⟩
    cases hf : (errorChain err).findSome? asFahError with
    | some fe2 => exact ⟨fe2, rfl⟩
    | none =>
      rw [List.findSome?_eq_none_iff] at hf
      have := hf _ h
      simp [asFahError] at this

/-- The shapes of a run whose flags pass validation. -/
theorem main_shape (fl : Flags) (env : Env) (b : String)
    (hv : passesValidation fl) (hb : fl.backendRootDirectory = some b) :
    (∃ e0, env.NewClient = .error e0 ∧
      main fl env = [.newClient,
        .logFatal ("failed to create secretmanager client: " ++ e0.Error ++ "")]) ∨
    (∃ c e, env.NewClient = .ok c ∧ (fl.apphostingYAMLFilePath = "" ∧ b ≠ "") ∧
      (env.DetectAppHostingYAMLPath fl.workspacePath b).2 = some e ∧
      main fl env = [.newClient, .detect fl.workspacePath b,
        .exit 1 (some (handleError e))]) ∨
    (∃ c e, env.NewClient = .ok c ∧ (fl.apphostingYAMLFilePath = "" ∧ b ≠ "") ∧
      (env.DetectAppHostingYAMLPath fl.workspacePath b).2 = none ∧
      env.Prepare (resolvedOptions fl env b c) = some e ∧
      main fl env = [.newClient, .detect fl.workspacePath b,
        .prepare (resolvedOptions fl env b c), .exit 1 (some (handleError e))]) ∨
    (∃ c, env.NewClient = .ok c ∧ (fl.apphostingYAMLFilePath = "" ∧ b ≠ "") ∧
      (env.DetectAppHostingYAMLPath fl.workspacePath b).2 = none ∧
      env.Prepare (resolvedOptions fl env b c) = none ∧
      main fl env = [.newClient, .detect fl.workspacePath b,
        .prepare (resolvedOptions fl env b c), .exit 0 none]) ∨
    (∃ c e, env.NewClient = .ok c ∧ ¬ (fl.apphostingYAMLFilePath = "" ∧ b ≠ "") ∧
      env.Prepare (resolvedOptions fl env b c) = some e ∧
      main fl env = [.newClient, .prepare (resolvedOptions fl env b c),
        .exit 1 (some (handleError e))]) ∨
    (∃ c, env.NewClient = .ok c ∧ ¬ (fl.apphostingYAMLFilePath = "" ∧ b ≠ "") ∧
      env.Prepare (resolvedOptions fl env b c) = none ∧
      main fl env = [.newClient, .prepare (resolvedOptions fl env b c), .exit 0 none]) := by
  cases hc : env.NewClient with
  | error e0 => exact Or.inl ⟨e0, rfl, main_of_client_error fl env e0 hv hc⟩
  | ok c =>
    right
    rw [main_of_client fl env c b hv hb hc]
    unfold runWithClient prepareAndExit
    by_cases hd : fl.apphostingYAMLFilePath = "" ∧ b ≠ ""
    · have hro : resolvedOptions fl env b c = { assembleOptions fl b c with
          AppHostingYAMLPath := (env.DetectAppHostingYAMLPath fl.workspacePath b).1 } := by
        simp [resolvedOptions, hd]
      rw [if_pos hd]
      cases hr : (env.DetectAppHostingYAMLPath fl.workspacePath b).2 with
      | some e => exact Or.inl ⟨c, e, rfl, hd, rfl, rfl⟩
      | none =>
        right
        cases hp : env.Prepare (resolvedOptions fl env b c) with
        | some e =>
          refine Or.inl ⟨c, e, rfl, hd, rfl, hp, ?_⟩
          rw [hro] at hp ⊢
          simp [hp]
        | none =>
          refine Or.inr (Or.inl ⟨c, rfl, hd, rfl, hp, ?_⟩)
          rw [hro] at hp ⊢
          simp [hp]
    · have hro : resolvedOptions fl env b c = assembleOptions fl b c := by
        simp only [resolvedOptions, if_neg hd]
      rw [if_neg hd]
      right; right; right
      cases hp : env.Prepare (resolvedOptions fl env b c) with
      | some e =>
        refine Or.inl ⟨c, e, rfl, hd, hp, ?_⟩
        rw [hro] at hp ⊢
        simp [hp]
      | none =>
        refine Or.inr ⟨c, rfl, hd, hp, ?_⟩
        rw [hro] at hp ⊢
        simp [hp]

/-- C2: `handleError` returns a user error exactly when the error chain contains a
`*faherror.FahError`, and otherwise returns the internal error that wraps `err`; in a run
whose flags pass validation, a failure of the path resolver or of `Prepare` with an error
`e` ends the run with the call `Exit(1, handleError(e))`. -/
theorem C2_handleError_classifies (err : GoError) (fl : Flags) (env : Env)
    (hv : passesValidation fl) :
    (isUserError (handleError err) = true ↔ ∃ fe, GoError.fah fe ∈ errorChain err) ∧
    ((∃ fe, GoError.fah fe ∈ errorChain err) → ∃ arg, handleError err = UserErrorf arg) ∧
    ((¬ ∃ fe, GoError.fah fe ∈ errorChain err) → handleError err = InternalErrorf err) ∧
    (∀ w b e, Event.detect w b ∈ main fl env →
      (env.DetectAppHostingYAMLPath w b).2 = some e →
      (main fl env).getLast? = some (.exit 1 (some (handleError e)))) ∧
    (∀ o e, Event.prepare o ∈ main fl env → env.Prepare o = some e →
      (main fl env).getLast? = some (.exit 1 (some (handleError e)))) := by
  have hiff := errorsAs_isSome_iff err
  refine ⟨?_, ?_, ?_, ?_, ?_⟩
  · rw [← hiff]
    unfold handleError
    cases h : errorsAs err <;> simp [isUserError, UserErrorf, InternalErrorf]
  · rw [← hiff]
    rintro ⟨fe, h⟩
    exact ⟨.fah fe, by simp [handleError, h]⟩
  · rw [← hiff]
    intro h
    cases h2 : errorsAs err with
    | some fe => exact absurd ⟨fe, h2⟩ h
    | none => simp [handleError, h2]
  · obtain ⟨b, hb⟩ := backend_of_passesValidation fl hv
    intro w b2 e
    rcases main_shape fl env b hv hb with ⟨e0, _, hm⟩ | ⟨c, e1, _, _, hr, hm⟩ |
      ⟨c, e1, _, _, hr, _, hm⟩ | ⟨c, _, _, hr, _, hm⟩ | ⟨c, e1, _, _, _, hm⟩ | ⟨c, _, _, _, hm⟩
    all_goals rw [hm]
    all_goals simp
    all_goals rintro rfl rfl he
    all_goals rw [hr] at he
    all_goals simp_all
  · obtain ⟨b, hb⟩ := backend_of_passesValidation fl hv
    intro o e
    rcases main_shape fl env b hv hb with ⟨e0, _, hm⟩ | ⟨c, e1, _, _, hr, hm⟩ |
      ⟨c, e1, _, _, _, hp, hm⟩ | ⟨c, _, _, _, hp, hm⟩ | ⟨c, e1, _, _, hp, hm⟩ | ⟨c, _, _, hp, hm⟩
    all_goals rw [hm]
    all_goals simp
    all_goals rintro rfl he
    all_goals rw [hp] at he
    all_goals simp_all

/-- C2, at a concrete input: `Prepare` fails with an error that wraps a known user error;
the run ends with `Exit(1, ...)` and a user error. -/
theorem C2_handleError_classifies_witness :
    passesValidation sampleFlags ∧
    (isUserError (handleError wrappedUserError) = true ↔
      ∃ fe, GoError.fah fe ∈ errorChain wrappedUserError) ∧
    (main sampleFlags envPrepareFails).getLast? =
      some (.exit 1 (some (handleError wrappedUserError))) :=
  ⟨by decide,
   (C2_handleError_classifies wrappedUserError sampleFlags envPrepareFails (by decide)).1,
   (C2_handleError_classifies wrappedUserError sampleFlags envPrepareFails
      (by decide)).2.2.2.2
     { assembleOptions sampleFlags "/ws/app" ⟨7⟩ with
       AppHostingYAMLPath := "/ws/app/apphosting.yaml" }
     wrappedUserError (by decide) rfl⟩

/-- C3: when the flags pass validation and the path resolver is called and returns an
error `e`, `Prepare` is not called, the run ends with the call `Exit(1, handleError(e))`,
that call is the only call to `Exit`, and `Exit` is not called with code 0. -/
theorem C3_resolver_failure_is_fatal (fl : Flags) (env : Env) (w b : String) (e : GoError)
    (hv : passesValidation fl)
    (hcall : Event.detect w b ∈ main fl env)
    (herr : (env.DetectAppHostingYAMLPath w b).2 = some e) :
    (∀ o, Event.prepare o ∉ main fl env) ∧
    (main fl env).getLast? = some (.exit 1 (some (handleError e))) ∧
    (main fl env).filter Event.isExit = [.exit 1 (some (handleError e))] ∧
    (∀ err, Event.exit 0 err ∉ main fl env) := by
  obtain ⟨b0, hb⟩ := backend_of_passesValidation fl hv
  rcases main_shape fl env b0 hv hb with ⟨e0, _, hm⟩ | ⟨c, e1, _, _, hr, hm⟩ |
    ⟨c, e1, _, _, hr, _, hm⟩ | ⟨c, _, _, hr, _, hm⟩ | ⟨c, e1, _, _, _, hm⟩ | ⟨c, _, _, _, hm⟩
  all_goals rw [hm] at hcall ⊢
  all_goals simp at hcall
  all_goals obtain ⟨rfl, rfl⟩ := hcall
  all_goals rw [hr] at herr
  all_goals simp at herr
  subst herr
  simp [Event.isExit, List.filter]

/-- C3, at a concrete input: the resolver fails, the run is
`NewClient`, `DetectAppHostingYAMLPath`, `Exit(1, ...)`. -/
theorem C3_resolver_failure_is_fatal_witness :
    passesValidation sampleFlags ∧
    Event.detect "/workspace" "/ws/app" ∈ main sampleFlags envDetectFails ∧
    (∀ o, Event.prepare o ∉ main sampleFlags envDetectFails) ∧
    (main sampleFlags envDetectFails).getLast? =
      some (.exit 1 (some (handleError (.plain "apphosting.yaml not found")))) ∧
    (main sampleFlags envDetectFails).filter Event.isExit =
      [.exit 1 (some (handleError (.plain "apphosting.yaml not found")))] ∧
    (∀ err, Event.exit 0 err ∉ main sampleFlags envDetectFails) :=
  ⟨by decide, by decide,
   C3_resolver_failure_is_fatal sampleFlags envDetectFails "/workspace" "/ws/app"
     (.plain "apphosting.yaml not found") (by decide) (by decide) rfl⟩

/-- C4: when the flags pass validation and the secret client is created, the path
resolver is called exactly when apphostingyaml_filepath is empty and
backend_root_directory is not; it is then called once, with the arguments
(workspace_path, backend_root_directory), and before `Prepare`.  With an explicit
apphostingyaml_filepath it is not called. -/
theorem C4_resolver_call_condition (fl : Flags) (env : Env) (b : String) (c : Client)
    (hv : passesValidation fl) (hb : fl.backendRootDirectory = some b)
    (hc : env.NewClient = .ok c) :
    ((∃ w b2, Event.detect w b2 ∈ main fl env) ↔
      (fl.apphostingYAMLFilePath = "" ∧ b ≠ "")) ∧
    ((fl.apphostingYAMLFilePath = "" ∧ b ≠ "") →
      (main fl env).filter Event.isDetect = [.detect fl.workspacePath b]) ∧
    (∀ i j w b2 o, (main fl env).get? i = some (.detect w b2) →
      (main fl env).get? j = some (.prepare o) → i < j) ∧
    (fl.apphostingYAMLFilePath ≠ "" → ∀ w b2, Event.detect w b2 ∉ main fl env) := by
  rcases main_shape fl env b hv hb with ⟨e0, h0, hm⟩ | ⟨c, e1, _, hd, hr, hm⟩ |
    ⟨c, e1, _, hd, hr, _, hm⟩ | ⟨c, _, hd, hr, _, hm⟩ | ⟨c, e1, _, hd, _, hm⟩ | ⟨c, _, hd, _, hm⟩
  · rw [hc] at h0; cases h0
  all_goals rw [hm]
  all_goals refine ⟨?_, ?_, ?_, ?_⟩
  all_goals try (simp [Event.isDetect, List.filter, hd]; done)
  all_goals intro i j w b2 o hi hj
  all_goals match i, j with
    | 0, _ => simp at hi
    | 1, 0 => simp at hj
    | 1, 1 => first | (simp at hi; done) | simp at hj
    | 1, (_ + 2) => omega
    | 2, _ => simp at hi
    | 3, _ => simp at hi
    | (_ + 4), _ => simp at hi

/-- C4, at a concrete input: no explicit path and a backend root directory; the resolver
is called once with `("/workspace", "/ws/app")`. -/
theorem C4_resolver_call_condition_witness :
    passesValidation sampleFlags ∧
    (main sampleFlags sampleEnv).filter Event.isDetect = [.detect "/workspace" "/ws/app"] :=
  ⟨by decide,
   (C4_resolver_call_condition sampleFlags sampleEnv "/ws/app" ⟨7⟩ (by decide) rfl rfl).2.1
     (by decide)⟩

/-- C5: when the flags pass validation and `Prepare` is reached, `Prepare` is called
exactly once, and the `AppHostingYAMLPath` it receives is the flag apphostingyaml_filepath
when that is not empty, the path returned by the resolver (which has succeeded) when the
flag is empty and backend_root_directory is not, and the empty string when both are
empty.  In the last case the run does reach `Prepare` once the secret client is
created. -/
theorem C5_path_passed_to_prepare (fl : Flags) (env : Env) (b : String)
    (hv : passesValidation fl) (hb : fl.backendRootDirectory = some b) :
    (∀ o, Event.prepare o ∈ main fl env →
      (main fl env).filter Event.isPrepare = [.prepare o] ∧
      (fl.apphostingYAMLFilePath ≠ "" → o.AppHostingYAMLPath = fl.apphostingYAMLFilePath) ∧
      (fl.apphostingYAMLFilePath = "" → b ≠ "" →
        (env.DetectAppHostingYAMLPath fl.workspacePath b).2 = none ∧
        o.AppHostingYAMLPath = (env.DetectAppHostingYAMLPath fl.workspacePath b).1) ∧
      (fl.apphostingYAMLFilePath = "" → b = "" → o.AppHostingYAMLPath = "")) ∧
    (∀ c, env.NewClient = .ok c → fl.apphostingYAMLFilePath = "" → b = "" →
      (∃ o, Event.prepare o ∈ main fl env ∧ o.AppHostingYAMLPath = "") ∧
      ∀ w b2, Event.detect w b2 ∉ main fl env) := by
  rcases main_shape fl env b hv hb with ⟨e0, h0, hm⟩ | ⟨c, e1, h0, hd, hr, hm⟩ |
    ⟨c, e1, h0, hd, hr, _, hm⟩ | ⟨c, h0, hd, hr, _, hm⟩ | ⟨c, e1, h0, hd, _, hm⟩ |
    ⟨c, h0, hd, _, hm⟩
  all_goals rw [hm]
  all_goals refine ⟨?_, ?_⟩
  · simp
  · intro c hc; rw [hc] at h0; cases h0
  · simp
  · intro c2 _ _ hb2; exact absurd hb2 hd.2
  · intro o ho
    simp at ho
    subst ho
    simp [Event.isPrepare, List.filter, resolvedOptions, hd, hr]
  · intro c2 _ _ hb2; exact absurd hb2 hd.2
  · intro o ho
    simp at ho
    subst ho
    simp [Event.isPrepare, List.filter, resolvedOptions, hd, hr]
  · intro c2 _ _ hb2; exact absurd hb2 hd.2
  · intro o ho
    simp at ho
    subst ho
    have hro : resolvedOptions fl env b c = assembleOptions fl b c := by
      simp only [resolvedOptions, if_neg hd]
    refine ⟨by simp [Event.isPrepare, List.filter], ?_, ?_, ?_⟩
    · intro _; rw [hro]; rfl
    · intro h1 h2; exact absurd ⟨h1, h2⟩ hd
    · intro h1 _; rw [hro]; exact h1
  · intro c2 _ h1 _
    have hro : resolvedOptions fl env b c = assembleOptions fl b c := by
      simp only [resolvedOptions, if_neg hd]
    refine ⟨⟨resolvedOptions fl env b c, by simp, ?_⟩, by simp⟩
    rw [hro]; exact h1
  · intro o ho
    simp at ho
    subst ho
    have hro : resolvedOptions fl env b c = assembleOptions fl b c := by
      simp only [resolvedOptions, if_neg hd]
    refine ⟨by simp [Event.isPrepare, List.filter], ?_, ?_, ?_⟩
    · intro _; rw [hro]; rfl
    · intro h1 h2; exact absurd ⟨h1, h2⟩ hd
    · intro h1 _; rw [hro]; exact h1
  · intro c2 _ h1 _
    have hro : resolvedOptions fl env b c = assembleOptions fl b c := by
      simp only [resolvedOptions, if_neg hd]
    refine ⟨⟨resolvedOptions fl env b c, by simp, ?_⟩, by simp⟩
    rw [hro]; exact h1

/-- C5, at a concrete input: the spec's scenario, in which the resolver returns
`/ws/app/apphosting.yaml`. -/
theorem C5_path_passed_to_prepare_witness :
    passesValidation sampleFlags ∧
    Event.prepare (resolvedOptions sampleFlags sampleEnv "/ws/app" ⟨7⟩) ∈
      main sampleFlags sampleEnv ∧
    (main sampleFlags sampleEnv).filter Event.isPrepare =
      [.prepare (resolvedOptions sampleFlags sampleEnv "/ws/app" ⟨7⟩)] ∧
    (resolvedOptions sampleFlags sampleEnv "/ws/app" ⟨7⟩).AppHostingYAMLPath =
      "/ws/app/apphosting.yaml" :=
  ⟨by decide, by decide,
   ((C5_path_passed_to_prepare sampleFlags sampleEnv "/ws/app" (by decide) rfl).1
      (resolvedOptions sampleFlags sampleEnv "/ws/app" ⟨7⟩) (by decide)).1,
   (((C5_path_passed_to_prepare sampleFlags sampleEnv "/ws/app" (by decide) rfl).1
      (resolvedOptions sampleFlags sampleEnv "/ws/app" ⟨7⟩) (by decide)).2.2.1
      rfl (by decide)).2⟩

/-- C6: when the flags pass validation and `Prepare` is called and returns no error, the
run ends with the call `Exit(0, nil)`, which is the only call to `Exit`, so `Exit` is not
called with code 1; conversely `Exit` is called with code 0 only after a call to
`Prepare` that returned no error. -/
theorem C6_success_exits_zero (fl : Flags) (env : Env) (hv : passesValidation fl) :
    (∀ o, Event.prepare o ∈ main fl env → env.Prepare o = none →
      (main fl env).getLast? = some (.exit 0 none) ∧
      (main fl env).filter Event.isExit = [.exit 0 none] ∧
      ∀ err, Event.exit 1 err ∉ main fl env) ∧
    (∀ err, Event.exit 0 err ∈ main fl env →
      err = none ∧ ∃ o, Event.prepare o ∈ main fl env ∧ env.Prepare o = none) := by
  obtain ⟨b, hb⟩ := backend_of_passesValidation fl hv
  rcases main_shape fl env b hv hb with ⟨e0, h0, hm⟩ | ⟨c, e1, h0, hd, hr, hm⟩ |
    ⟨c, e1, h0, hd, hr, hp, hm⟩ | ⟨c, h0, hd, hr, hp, hm⟩ | ⟨c, e1, h0, hd, hp, hm⟩ |
    ⟨c, h0, hd, hp, hm⟩
  all_goals rw [hm]
  all_goals refine ⟨?_, ?_⟩
  all_goals try (simp; done)
  · intro o ho hn
    simp at ho
    subst ho
    rw [hp] at hn
    cases hn
  · intro o _ _
    simp [Event.isExit, List.filter]
  · intro err he
    simp at he
    exact ⟨he, _, by simp, hp⟩
  · intro o ho hn
    simp at ho
    subst ho
    rw [hp] at hn
    cases hn
  · intro o _ _
    simp [Event.isExit, List.filter]
  · intro err he
    simp at he
    exact ⟨he, _, by simp, hp⟩

/-- C6, at a concrete input: the spec's scenario with a successful `Prepare`. -/
theorem C6_success_exits_zero_witness :
    passesValidation sampleFlags ∧
    (main sampleFlags sampleEnv).getLast? = some (.exit 0 none) ∧
    (main sampleFlags sampleEnv).filter Event.isExit = [.exit 0 none] ∧
    ∀ err, Event.exit 1 err ∉ main sampleFlags sampleEnv :=
  ⟨by decide,
   (C6_success_exits_zero sampleFlags sampleEnv (by decide)).1
     (resolvedOptions sampleFlags sampleEnv "/ws/app" ⟨7⟩) (by decide) rfl⟩

/-- C7: when `errors.As` finds the `*faherror.FahError` `fe` in `err`, `handleError(err)`
is the user error built from `fe` itself, not from `err`; its message is the message of
`fe`, without the text of the wrappers around `fe`, and `fe` is what it unwraps to, so
that `fe` is in its error chain and `errors.As` finds it again. -/
theorem C7_user_error_wraps_marker (err : GoError) (fe : FahError)
    (h : errorsAs err = some fe) :
    GoError.fah fe ∈ errorChain err ∧
    handleError err = UserErrorf (.fah fe) ∧
    (err ≠ .fah fe → handleError err ≠ UserErrorf err) ∧
    (handleError err).Error = fe.msg ∧
    (handleError err).unwrap = [.fah fe] ∧
    GoError.fah fe ∈ errorChain (handleError err) ∧
    errorsAs (handleError err) = some fe := by
  have hh : handleError err = UserErrorf (.fah fe) := by simp [handleError, h]
  refine ⟨?_, hh, ?_, ?_, ?_, ?_, ?_⟩
  · rw [errorsAs_eq_findSome] at h
    obtain ⟨x, hx, hfe⟩ := List.exists_of_findSome?_eq_some h
    cases x <;> simp [asFahError] at hfe
    subst hfe
    exact hx
  · intro hne heq
    rw [hh] at heq
    simp only [UserErrorf, GoError.user.injEq] at heq
    exact hne heq.symm
  · rw [hh]; rfl
  · rw [hh]; rfl
  · rw [hh]; simp [UserErrorf, errorChain]
  · rw [hh]; rfl

/-- C7, at the input of the spec's scenario: an error that wraps a known user error with
the message "invalid runtime version" is reported with exactly that message. -/
theorem C7_user_error_wraps_marker_witness :
    errorsAs wrappedUserError = some ⟨"invalid runtime version"⟩ ∧
    wrappedUserError.Error = "preparing the build: invalid runtime version" ∧
    (handleError wrappedUserError).Error = "invalid runtime version" ∧
    errorsAs (handleError wrappedUserError) = some ⟨"invalid runtime version"⟩ :=
  ⟨rfl, by decide,
   (C7_user_error_wraps_marker wrappedUserError ⟨"invalid runtime version"⟩ rfl).2.2.2.1,
   (C7_user_error_wraps_marker wrappedUserError ⟨"invalid runtime version"⟩ rfl).2.2.2.2.2.2⟩

theorem prepare_mem_main (fl : Flags) (env : Env) (b : String) (o : Options)
    (hv : passesValidation fl) (hb : fl.backendRootDirectory = some b)
    (ho : Event.prepare o ∈ main fl env) :
    ∃ c, env.NewClient = .ok c ∧ o = resolvedOptions fl env b c := by
  rcases main_shape fl env b hv hb with ⟨e0, h0, hm⟩ | ⟨c, e1, h0, hd, hr, hm⟩ |
    ⟨c, e1, h0, hd, hr, hp, hm⟩ | ⟨c, h0, hd, hr, hp, hm⟩ | ⟨c, e1, h0, hd, hp, hm⟩ |
    ⟨c, h0, hd, hp, hm⟩
  all_goals rw [hm] at ho
  all_goals simp at ho
  all_goals exact ⟨c, h0, ho⟩

/-- C8: when the flags pass validation and `Prepare` is reached, every field of the
options it receives other than `AppHostingYAMLPath` (and the client handle) is the value
of the corresponding flag; in particular `ServerSideEnvVars` is empty exactly when the
flag server_side_env_vars is. -/
theorem C8_options_fields_are_flags (fl : Flags) (env : Env) (b : String) (o : Options)
    (hv : passesValidation fl) (hb : fl.backendRootDirectory = some b)
    (ho : Event.prepare o ∈ main fl env) :
    o.ProjectID = fl.projectID ∧
    o.EnvironmentName = fl.environmentName ∧
    o.AppHostingYAMLOutputFilePath = fl.appHostingYAMLOutputFilePath ∧
    o.EnvDereferencedOutputFilePath = fl.dotEnvOutputFilePath ∧
    o.BackendRootDirectory = b ∧
    o.BuildpackConfigOutputFilePath = fl.buildpackConfigOutputFilePath ∧
    o.FirebaseConfig = fl.firebaseConfig ∧
    o.FirebaseWebappConfig = fl.firebaseWebappConfig ∧
    o.ServerSideEnvVars = fl.serverSideEnvVars ∧
    (o.ServerSideEnvVars = "" ↔ fl.serverSideEnvVars = "") := by
  obtain ⟨c, _, rfl⟩ := prepare_mem_main fl env b o hv hb ho
  unfold resolvedOptions assembleOptions
  split_ifs <;> simp

/-- C8, at a concrete input with every flag given. -/
theorem C8_options_fields_are_flags_witness :
    passesValidation fullFlags ∧
    Event.prepare (assembleOptions fullFlags "/ws/app" ⟨7⟩) ∈ main fullFlags sampleEnv ∧
    (assembleOptions fullFlags "/ws/app" ⟨7⟩).ServerSideEnvVars =
      "KEY=value" :=
  ⟨by decide, by decide,
   (C8_options_fields_are_flags fullFlags sampleEnv "/ws/app"
      (assembleOptions fullFlags "/ws/app" ⟨7⟩) (by decide) rfl (by decide)).2.2.2.2.2.2.2.2.1⟩

theorem runProc_runs_deferred (e1 e2 : Event) :
    runProc (do deferCall e1; call e2 ()) = [e2, e1] := rfl

/-- C9: the deferred call `secretClient.Close()` is not made on any run, whatever the
flags and the collaborators do, because every path of `main` ends the process with
`Exit` or `log.Fatal` and `main` never returns.  The three runs named by the claim
(exit 0 after a successful preparation, exit 1 after a resolver failure, exit 1 after a
preparation failure) are evaluated: none contains a call to `Close`. -/
theorem C9_close_is_never_called :
    (∀ fl env c, Event.close c ∉ main fl env) ∧
    main sampleFlags sampleEnv =
      [.newClient, .detect "/workspace" "/ws/app",
       .prepare (resolvedOptions sampleFlags sampleEnv "/ws/app" ⟨7⟩), .exit 0 none] ∧
    main sampleFlags envDetectFails =
      [.newClient, .detect "/workspace" "/ws/app",
       .exit 1 (some (InternalErrorf (.plain "apphosting.yaml not found")))] ∧
    main sampleFlags envPrepareFails =
      [.newClient, .detect "/workspace" "/ws/app",
       .prepare (resolvedOptions sampleFlags envPrepareFails "/ws/app" ⟨7⟩),
       .exit 1 (some (UserErrorf (.fah ⟨"invalid runtime version"⟩)))] ∧
    (main sampleFlags sampleEnv).filter Event.isClose = [] ∧
    (main sampleFlags envDetectFails).filter Event.isClose = [] ∧
    (main sampleFlags envPrepareFails).filter Event.isClose = [] := by
  refine ⟨?_, by decide, by decide, by decide, by decide, by decide, by decide⟩
  intro fl env c
  by_cases hv : passesValidation fl
  · obtain ⟨b, hb⟩ := backend_of_passesValidation fl hv
    rcases main_shape fl env b hv hb with ⟨e0, h0, hm⟩ | ⟨c, e1, h0, hd, hr, hm⟩ |
      ⟨c, e1, h0, hd, hr, hp, hm⟩ | ⟨c, h0, hd, hr, hp, hm⟩ | ⟨c, e1, h0, hd, hp, hm⟩ |
      ⟨c, h0, hd, hp, hm⟩
    all_goals rw [hm]
    all_goals simp
  · cases hm : missingFields fl with
    | nil => exact absurd hm hv
    | cons name rest =>
      rw [main_of_missing fl env name (by simp [hm])]
      simp

/-- C10, as stated, fails: in the spec's scenario the options passed to `Prepare` differ
from the value built by the options assembler, in the field `AppHostingYAMLPath`. -/
theorem C10_counterexample :
    passesValidation sampleFlags ∧
    Event.prepare
      { assembleOptions sampleFlags "/ws/app" ⟨7⟩ with
        AppHostingYAMLPath := "/ws/app/apphosting.yaml" } ∈ main sampleFlags sampleEnv ∧
    ({ assembleOptions sampleFlags "/ws/app" ⟨7⟩ with
        AppHostingYAMLPath := "/ws/app/apphosting.yaml" } : Options) ≠
      assembleOptions sampleFlags "/ws/app" ⟨7⟩ ∧
    Event.prepare (assembleOptions sampleFlags "/ws/app" ⟨7⟩) ∉ main sampleFlags sampleEnv := by
  decide

/-- C10, amended: the options passed to `Prepare` are the value built by the options
assembler from the flags and the secret client, except that `AppHostingYAMLPath` is
assigned the path returned by the resolver when the resolver is called
(apphostingyaml_filepath empty and backend_root_directory not empty); when the resolver is
not called the two values are equal, field for field. -/
theorem C10_options_equal_assembled_up_to_path (fl : Flags) (env : Env) (b : String)
    (c : Client) (o : Options)
    (hv : passesValidation fl) (hb : fl.backendRootDirectory = some b)
    (hc : env.NewClient = .ok c)
    (ho : Event.prepare o ∈ main fl env) :
    o = { assembleOptions fl b c with AppHostingYAMLPath := o.AppHostingYAMLPath } ∧
    ((fl.apphostingYAMLFilePath = "" ∧ b ≠ "") →
      o.AppHostingYAMLPath = (env.DetectAppHostingYAMLPath fl.workspacePath b).1) ∧
    (¬ (fl.apphostingYAMLFilePath = "" ∧ b ≠ "") → o = assembleOptions fl b c) := by
  obtain ⟨c2, hc2, rfl⟩ := prepare_mem_main fl env b o hv hb ho
  rw [hc] at hc2
  cases hc2
  unfold resolvedOptions
  split_ifs with hd
  · exact ⟨rfl, fun _ => rfl, fun h => absurd hd h⟩
  · exact ⟨rfl, fun h => absurd h hd, fun _ => rfl⟩

/-- C10 amended, at two concrete inputs: the spec's scenario, where the resolver is
called, and flags with an explicit apphostingyaml_filepath, where it is not. -/
theorem C10_options_equal_assembled_up_to_path_witness :
    passesValidation sampleFlags ∧ passesValidation fullFlags ∧
    (resolvedOptions sampleFlags sampleEnv "/ws/app" ⟨7⟩).AppHostingYAMLPath =
      "/ws/app/apphosting.yaml" ∧
    resolvedOptions fullFlags sampleEnv "/ws/app" ⟨7⟩ =
      assembleOptions fullFlags "/ws/app" ⟨7⟩ :=
  ⟨by decide, by decide,
   (C10_options_equal_assembled_up_to_path sampleFlags sampleEnv "/ws/app" ⟨7⟩
      (resolvedOptions sampleFlags sampleEnv "/ws/app" ⟨7⟩) (by decide) rfl rfl
      (by decide)).2.1 (by decide),
   (C10_options_equal_assembled_up_to_path fullFlags sampleEnv "/ws/app" ⟨7⟩
      (resolvedOptions fullFlags sampleEnv "/ws/app" ⟨7⟩) (by decide) rfl rfl
      (by decide)).2.2 (by decide)⟩

end Preparer
